import Mathlib

/-!
Verification development for the `zotero-arxiv-daily` ranking pipeline.

The development shallowly embeds the relevance-ranking subsystem:
`rank_papers` from `src/recommender.py`, the per-tag partition loop and the
untagged branch of `src/main.py`, the corpus tag filter
`filter_corpus_by_tag`, and the `score` field of `ArxivPaper` from
`src/paper.py`.

Modelling conventions
- Python floats are modelled as rationals (`ℚ`); `ndarray.item()` is the
  identity under this reading.
- Candidate `ArxivPaper` objects are mutable heap objects shared between
  partitions (`papers.copy()` in `src/main.py` copies the list, not the
  objects).  They are modelled by object ids (`Nat`) plus an explicit heap
  `PaperStore` mapping each id to its immutable `summary` and its mutable
  `score` field; the ghost field `assigns` counts how many times the
  assignment `candidate.score = score.item()` has executed for that object.
- The sentence-embedding model (`SentenceTransformer(model).encode`) is an
  external pretrained network; it is passed in as a function
  `encode : String → List ℚ`, matching the spec's external-interface
  contract `embed(text) → vector` (deterministic per text, batch applied
  element-wise).
- `sklearn.preprocessing.StandardScaler` is embedded from its documented
  semantics: `fit` records per-column mean and standard deviation of the
  fitted matrix, replacing a zero standard deviation by 1
  (`_handle_zeros_in_scale`), and raises on an empty input matrix;
  `transform` maps each coordinate to `(x - mean) / scale`.  The real
  square root is passed in as a function `sqrtQ : ℚ → ℚ`; facts about it
  are taken as hypotheses where needed (on nonnegative inputs the real
  square root vanishes exactly at 0).
- `sklearn.svm.OneClassSVM` is an external kernel solver; its combination
  of `fit` on the scaled corpus followed by row-wise `decision_function`
  is passed in as `svmFit nu gamma scaledCorpus : List ℚ → ℚ`, reflecting
  that the fitted decision function is determined by the hyperparameters
  and the fitted (corpus) rows only, and that `decision_function` scores
  each input row independently.
- Python exceptions are modelled by `Except String`.  The error cases the
  orchestration code can actually reach are: fitting the scaler on an
  empty matrix (empty reference corpus), the batch transform's input
  validation on an empty matrix (empty candidate list, reached before
  any statistics are built), and `max()`/`min()` of an empty sequence
  (unreachable in the embedded flows, since the transform validation
  fires first).
-/

/-- A reference item from the user's Zotero library, as consumed by the
ranking core: its `abstractNote` text and its list of tag labels
(`c["data"]["abstractNote"]`, `c["data"]["tags"]` in `src/main.py`). -/
structure RefItem where
  abstractNote : String
  tags : List String
deriving DecidableEq

/-- The heap of candidate `ArxivPaper` objects (`src/paper.py`).  Object
identity is a `Nat` id.  `summary` is the immutable abstract text;
`score` is the mutable relevance-score field (`None` at construction,
modelled by `none`); `assigns` is a ghost counter of how many times the
statement `candidate.score = score.item()` (`src/recommender.py`) has run
on that object. -/
structure PaperStore where
  summary : Nat → String
  score : Nat → Option ℚ
  assigns : Nat → Nat

/-- A fitted `StandardScaler`: per-column means and (zero-corrected)
standard deviations. -/
structure StandardScaler where
  means : List ℚ
  scales : List ℚ
deriving DecidableEq

/-- Column `j` of a row-major matrix (absent entries read as 0; sklearn
would reject ragged input, which the modelled flows never produce). -/
def colVals (X : List (List ℚ)) (j : Nat) : List ℚ :=
  X.map (fun r => r.getD j 0)

/-- Arithmetic mean of a list of rationals (0 on the empty list, as
`ℚ` division by zero is 0). -/
def qmean (xs : List ℚ) : ℚ :=
  xs.sum / xs.length

/-- Population variance (ddof = 0, as used by `StandardScaler`). -/
def qvar (xs : List ℚ) : ℚ :=
  qmean (xs.map (fun x => (x - qmean xs) ^ 2))

/-- Number of feature columns of a fitted matrix. -/
def nFeatures (X : List (List ℚ)) : Nat :=
  (X.headD []).length

/-- sklearn's `_handle_zeros_in_scale`: a zero standard deviation is
replaced by 1 so that the corresponding column is only centered. -/
def handleZerosInScale (s : ℚ) : ℚ :=
  if s = 0 then 1 else s

/-- The scaler fitted on matrix `X`: column means, and column standard
deviations `sqrt (var)` passed through `handleZerosInScale`. -/
def fitScaler (sqrtQ : ℚ → ℚ) (X : List (List ℚ)) : StandardScaler :=
  { means := (List.range (nFeatures X)).map (fun j => qmean (colVals X j))
    scales := (List.range (nFeatures X)).map
      (fun j => handleZerosInScale (sqrtQ (qvar (colVals X j)))) }

/-- `StandardScaler.fit`: raises (`ValueError`) on an empty input matrix,
otherwise returns the fitted scaler. -/
def StandardScaler.fit (sqrtQ : ℚ → ℚ) (X : List (List ℚ)) :
    Except String StandardScaler :=
  if X.isEmpty then .error "Found array with 0 samples" else .ok (fitScaler sqrtQ X)

/-- The action of `StandardScaler.transform` on one row: coordinate-wise
`(x - mean) / scale`. -/
def StandardScaler.transform (sc : StandardScaler) (v : List ℚ) : List ℚ :=
  List.zipWith (fun x ms => (x - ms.1) / ms.2) v (sc.means.zip sc.scales)

/-- The batch `transform` of sklearn, as called on a whole feature
matrix: `check_array` input validation raises (`ValueError`) on a
0-sample array — the failure point reached with an empty candidate batch
— and otherwise the row action is applied to every row. -/
def StandardScaler.transformBatch (sc : StandardScaler) (X : List (List ℚ)) :
    Except String (List (List ℚ)) :=
  if X.isEmpty then .error "Found array with 0 samples"
  else .ok (X.map sc.transform)

/-- Python's builtin `max` over a sequence: raises on the empty sequence. -/
def pymax : List ℚ → Except String ℚ
  | [] => .error "max arg is an empty sequence"
  | x :: xs => .ok (xs.foldl max x)

/-- Python's builtin `min` over a sequence: raises on the empty sequence. -/
def pymin : List ℚ → Except String ℚ
  | [] => .error "min arg is an empty sequence"
  | x :: xs => .ok (xs.foldl min x)

/-- The `debug_info` record built by `rank_papers`
(`src/recommender.py` lines 28-31). -/
structure DebugInfo where
  max_score : ℚ
  min_score : ℚ
deriving DecidableEq

/-- One execution of `candidate.score = score.item()` on object `i`:
updates the heap and bumps the ghost assignment counter. -/
def setScore (st : PaperStore) (i : Nat) (s : ℚ) : PaperStore :=
  { st with
    score := fun j => if j = i then some s else st.score j
    assigns := fun j => if j = i then st.assigns j + 1 else st.assigns j }

/-- The loop `for score, candidate in zip(scores, candidates):
candidate.score = score.item()` (`src/recommender.py` lines 33-34). -/
def assignScores (st : PaperStore) : List (ℚ × Nat) → PaperStore
  | [] => st
  | (s, i) :: rest => assignScores (setScore st i s) rest

/-- The `score` attribute read as a float (defined value 0 when unset;
Python would raise on the unset case, which the modelled flows never
reach for the ids they sort and compare). -/
def scoreD (st : PaperStore) (i : Nat) : ℚ :=
  (st.score i).getD 0

/-- `rank_papers` from `src/recommender.py`, embedded statement by
statement: encode corpus abstracts and candidate summaries, fit the
scaler on the corpus features only (`fit_transform`, which raises on an
empty corpus; its transform of the just-fitted nonempty matrix cannot
fail and is the total row map), batch-transform the candidate features
(whose input validation raises on an empty candidate batch), fit the
one-class SVM on the scaled corpus features only, score the scaled
candidate features row-wise, build `debug_info` from max/min of all raw
scores, assign each score to its candidate object, filter by
`score >= min_score`, and stable-sort the survivors by descending score
(Python's `sorted` with `reverse=True` is the stable descending sort,
modelled here by the stable insertion sort).  Returns the ranked ids,
the debug record, and the mutated heap. -/
def rank_papers (encode : String → List ℚ) (sqrtQ : ℚ → ℚ)
    (svmFit : ℚ → String → List (List ℚ) → List ℚ → ℚ)
    (candidates : List Nat) (st : PaperStore) (corpus : List RefItem)
    (nu : ℚ) (gamma : String) (min_score : ℚ) :
    Except String (List Nat × DebugInfo × PaperStore) :=
  let corpus_features := corpus.map (fun p => encode p.abstractNote)
  let candidate_features := candidates.map (fun i => encode (st.summary i))
  match StandardScaler.fit sqrtQ corpus_features with
  | .error e => .error e
  | .ok scaler =>
    let corpus_features_scaled := corpus_features.map scaler.transform
    match scaler.transformBatch candidate_features with
    | .error e => .error e
    | .ok candidate_features_scaled =>
      let decision := svmFit nu gamma corpus_features_scaled
      let scores := candidate_features_scaled.map decision
      match pymax scores, pymin scores with
      | .ok mx, .ok mn =>
        let st2 := assignScores st (scores.zip candidates)
        let matching_papers :=
          candidates.filter (fun c => (st2.score c).any (fun s => decide (min_score ≤ s)))
        let ranked :=
          matching_papers.insertionSort (fun a b => scoreD st2 b ≤ scoreD st2 a)
        .ok (ranked, ⟨mx, mn⟩, st2)
      | .error e, _ => .error e
      | .ok _, .error e => .error e

/-- `filter_corpus_by_tag` from `src/main.py`: keep the reference items
carrying the tag. -/
def filter_corpus_by_tag (corpus : List RefItem) (tag : String) : List RefItem :=
  corpus.filter (fun c => c.tags.any (fun t => t == tag))

/-- The per-tag partition loop of `src/main.py` (lines 206-221): for each
tag in order, filter the corpus by the tag; if the subset is empty, log a
warning and `continue`; otherwise call `rank_papers` on (a list copy of)
the same candidate objects with `nu`/`gamma` defaults, recording
`(tag, ranked, debug)` in insertion order.  The heap threads through the
iterations because the candidate objects are shared. -/
def tagLoop (encode : String → List ℚ) (sqrtQ : ℚ → ℚ)
    (svmFit : ℚ → String → List (List ℚ) → List ℚ → ℚ)
    (corpus : List RefItem) (papers : List Nat) (min_score : ℚ) :
    List String → PaperStore →
    Except String (List (String × List Nat × DebugInfo) × PaperStore)
  | [], st => .ok ([], st)
  | tag :: rest, st =>
    let tag_corpus := filter_corpus_by_tag corpus tag
    if tag_corpus.isEmpty then
      tagLoop encode sqrtQ svmFit corpus papers min_score rest st
    else
      match rank_papers encode sqrtQ svmFit papers st tag_corpus (1/10) "scale" min_score with
      | .error e => .error e
      | .ok (ranked, dbg, st2) =>
        match tagLoop encode sqrtQ svmFit corpus papers min_score rest st2 with
        | .error e => .error e
        | .ok (out, st3) => .ok ((tag, ranked, dbg) :: out, st3)

/-- The untagged branch of `src/main.py` (line 234): a single call of
`rank_papers` on the full corpus with default `nu`/`gamma`, with no
empty-corpus guard. -/
def rankFullCorpus (encode : String → List ℚ) (sqrtQ : ℚ → ℚ)
    (svmFit : ℚ → String → List (List ℚ) → List ℚ → ℚ)
    (papers : List Nat) (st : PaperStore) (corpus : List RefItem)
    (min_score : ℚ) :
    Except String (List Nat × DebugInfo × PaperStore) :=
  rank_papers encode sqrtQ svmFit papers st corpus (1/10) "scale" min_score

/-- The score `rank_papers` computes for a candidate whose summary is
`summary`: a function of the encoder, the scaler hypotheses, the SVM
solver, the hyperparameters and the reference corpus only — not of the
candidate batch. -/
def scoreFun (encode : String → List ℚ) (sqrtQ : ℚ → ℚ)
    (svmFit : ℚ → String → List (List ℚ) → List ℚ → ℚ)
    (nu : ℚ) (gamma : String) (corpus : List RefItem) (summary : String) : ℚ :=
  let corpus_features := corpus.map (fun p => encode p.abstractNote)
  let scaler := fitScaler sqrtQ corpus_features
  svmFit nu gamma (corpus_features.map scaler.transform)
    (scaler.transform (encode summary))

/-- Total value of Python's `max` on a nonempty sequence (0 on `[]`,
unused there). -/
def pymaxD : List ℚ → ℚ
  | [] => 0
  | x :: xs => xs.foldl max x

/-- Total value of Python's `min` on a nonempty sequence (0 on `[]`,
unused there). -/
def pyminD : List ℚ → ℚ
  | [] => 0
  | x :: xs => xs.foldl min x

theorem le_foldl_max (x : ℚ) (xs : List ℚ) : x ≤ xs.foldl max x := by
  induction xs generalizing x with
  | nil => exact le_refl x
  | cons y ys ih => exact le_trans (le_max_left x y) (ih (max x y))

theorem mem_le_foldl_max (xs : List ℚ) (x a : ℚ) (ha : a ∈ xs) :
    a ≤ xs.foldl max x := by
  induction xs generalizing x with
  | nil => cases ha
  | cons y ys ih =>
    rcases List.mem_cons.mp ha with h | h
    · subst h; exact le_trans (le_max_right x a) (le_foldl_max _ _)
    · exact ih _ h

theorem foldl_min_le (x : ℚ) (xs : List ℚ) : xs.foldl min x ≤ x := by
  induction xs generalizing x with
  | nil => exact le_refl x
  | cons y ys ih => exact le_trans (ih (min x y)) (min_le_left x y)

theorem foldl_min_le_mem (xs : List ℚ) (x a : ℚ) (ha : a ∈ xs) :
    xs.foldl min x ≤ a := by
  induction xs generalizing x with
  | nil => cases ha
  | cons y ys ih =>
    rcases List.mem_cons.mp ha with h | h
    · subst h; exact le_trans (foldl_min_le (min x a) ys) (min_le_right x a)
    · exact ih _ h

theorem le_pymaxD (xs : List ℚ) (a : ℚ) (ha : a ∈ xs) : a ≤ pymaxD xs := by
  cases xs with
  | nil => cases ha
  | cons x rest =>
    rcases List.mem_cons.mp ha with h | h
    · subst h; exact le_foldl_max _ _
    · exact mem_le_foldl_max _ _ _ h

theorem pyminD_le (xs : List ℚ) (a : ℚ) (ha : a ∈ xs) : pyminD xs ≤ a := by
  cases xs with
  | nil => cases ha
  | cons x rest =>
    rcases List.mem_cons.mp ha with h | h
    · subst h; exact foldl_min_le _ _
    · exact foldl_min_le_mem _ _ _ h

theorem zip_map_self (g : Nat → ℚ) (l : List Nat) :
    (l.map g).zip l = l.map (fun i => (g i, i)) := by
  induction l with
  | nil => rfl
  | cons x xs ih => simp [ih]

theorem assignScores_summary (l : List (ℚ × Nat)) (st : PaperStore) :
    (assignScores st l).summary = st.summary := by
  induction l generalizing st with
  | nil => rfl
  | cons p rest ih => cases p with | mk s i => exact ih (setScore st i s)

theorem assignScores_score_map (g : Nat → ℚ) (ids : List Nat) (st : PaperStore)
    (j : Nat) :
    (assignScores st (ids.map (fun i => (g i, i)))).score j =
      if j ∈ ids then some (g j) else st.score j := by
  induction ids generalizing st with
  | nil => simp [assignScores]
  | cons i rest ih =>
    simp only [List.map_cons, assignScores]
    rw [ih]
    by_cases hjr : j ∈ rest
    · simp [hjr]
    · by_cases hji : j = i
      · subst hji; simp [hjr, setScore]
      · simp [hjr, hji, setScore]

theorem fit_of_ne_nil (sqrtQ : ℚ → ℚ) (X : List (List ℚ)) (h : X ≠ []) :
    StandardScaler.fit sqrtQ X = .ok (fitScaler sqrtQ X) := by
  have : X.isEmpty = false := by
    cases X with
    | nil => exact absurd rfl h
    | cons a l => rfl
  simp [StandardScaler.fit, this]

/-- The per-candidate score assigned by `rank_papers` run from heap `st`:
`scoreFun` applied to the candidate's own summary. -/
def rpScore (encode : String → List ℚ) (sqrtQ : ℚ → ℚ)
    (svmFit : ℚ → String → List (List ℚ) → List ℚ → ℚ)
    (nu : ℚ) (gamma : String) (corpus : List RefItem) (st : PaperStore)
    (i : Nat) : ℚ :=
  scoreFun encode sqrtQ svmFit nu gamma corpus (st.summary i)

/-- The heap after the assignment loop of `rank_papers`. -/
def rpStore (encode : String → List ℚ) (sqrtQ : ℚ → ℚ)
    (svmFit : ℚ → String → List (List ℚ) → List ℚ → ℚ)
    (nu : ℚ) (gamma : String) (corpus : List RefItem) (st : PaperStore)
    (cands : List Nat) : PaperStore :=
  assignScores st
    ((cands.map (fun i => rpScore encode sqrtQ svmFit nu gamma corpus st i)).zip
      cands)

/-- The `matching_papers` list of `rank_papers` before sorting. -/
def rpMatching (encode : String → List ℚ) (sqrtQ : ℚ → ℚ)
    (svmFit : ℚ → String → List (List ℚ) → List ℚ → ℚ)
    (nu : ℚ) (gamma : String) (corpus : List RefItem) (st : PaperStore)
    (cands : List Nat) (ms : ℚ) : List Nat :=
  cands.filter
    (fun c =>
      ((rpStore encode sqrtQ svmFit nu gamma corpus st cands).score c).any
        (fun s => decide (ms ≤ s)))

/-- The ranked output list of `rank_papers`. -/
def rpRanked (encode : String → List ℚ) (sqrtQ : ℚ → ℚ)
    (svmFit : ℚ → String → List (List ℚ) → List ℚ → ℚ)
    (nu : ℚ) (gamma : String) (corpus : List RefItem) (st : PaperStore)
    (cands : List Nat) (ms : ℚ) : List Nat :=
  (rpMatching encode sqrtQ svmFit nu gamma corpus st cands ms).insertionSort
    (fun a b =>
      scoreD (rpStore encode sqrtQ svmFit nu gamma corpus st cands) b ≤
        scoreD (rpStore encode sqrtQ svmFit nu gamma corpus st cands) a)

/-- The `debug_info` record of `rank_papers`. -/
def rpDbg (encode : String → List ℚ) (sqrtQ : ℚ → ℚ)
    (svmFit : ℚ → String → List (List ℚ) → List ℚ → ℚ)
    (nu : ℚ) (gamma : String) (corpus : List RefItem) (st : PaperStore)
    (cands : List Nat) : DebugInfo :=
  ⟨pymaxD (cands.map (fun i => rpScore encode sqrtQ svmFit nu gamma corpus st i)),
   pyminD (cands.map (fun i => rpScore encode sqrtQ svmFit nu gamma corpus st i))⟩

theorem rank_papers_corpus_nil (encode : String → List ℚ) (sqrtQ : ℚ → ℚ)
    (svmFit : ℚ → String → List (List ℚ) → List ℚ → ℚ)
    (cands : List Nat) (st : PaperStore) (nu : ℚ) (gamma : String) (ms : ℚ) :
    rank_papers encode sqrtQ svmFit cands st [] nu gamma ms =
      .error "Found array with 0 samples" := rfl

theorem rank_papers_cands_nil (encode : String → List ℚ) (sqrtQ : ℚ → ℚ)
    (svmFit : ℚ → String → List (List ℚ) → List ℚ → ℚ)
    (st : PaperStore) (corpus : List RefItem) (nu : ℚ) (gamma : String)
    (ms : ℚ) (hc : corpus ≠ []) :
    rank_papers encode sqrtQ svmFit [] st corpus nu gamma ms =
      .error "Found array with 0 samples" := by
  have hcf : corpus.map (fun p => encode p.abstractNote) ≠ [] := by
    simpa using hc
  simp only [rank_papers, fit_of_ne_nil _ _ hcf, List.map_nil]
  rfl

/-- Characterization of a successful `rank_papers` run: with a nonempty
reference corpus and a nonempty candidate list it returns the ranked
list, debug record and mutated heap given by the `rp*` components. -/
theorem rank_papers_ok_form (encode : String → List ℚ) (sqrtQ : ℚ → ℚ)
    (svmFit : ℚ → String → List (List ℚ) → List ℚ → ℚ)
    (cands : List Nat) (st : PaperStore) (corpus : List RefItem)
    (nu : ℚ) (gamma : String) (ms : ℚ)
    (hc : corpus ≠ []) (hk : cands ≠ []) :
    rank_papers encode sqrtQ svmFit cands st corpus nu gamma ms =
      .ok (rpRanked encode sqrtQ svmFit nu gamma corpus st cands ms,
        rpDbg encode sqrtQ svmFit nu gamma corpus st cands,
        rpStore encode sqrtQ svmFit nu gamma corpus st cands) := by
  obtain ⟨k, ks, rfl⟩ := List.exists_cons_of_ne_nil hk
  have hcf : corpus.map (fun p => encode p.abstractNote) ≠ [] := by
    simpa using hc
  simp only [rank_papers, fit_of_ne_nil _ _ hcf, List.map_cons,
    StandardScaler.transformBatch, List.isEmpty_cons, Bool.false_eq_true,
    if_false, pymax, pymin,
    rpRanked, rpMatching, rpStore, rpDbg, rpScore, scoreFun, List.map_map,
    List.zip_cons_cons, zip_map_self, pymaxD, pyminD, Function.comp_def]

/-- The score field written by `rank_papers` for each id. -/
theorem rpStore_score (encode : String → List ℚ) (sqrtQ : ℚ → ℚ)
    (svmFit : ℚ → String → List (List ℚ) → List ℚ → ℚ)
    (nu : ℚ) (gamma : String) (corpus : List RefItem) (st : PaperStore)
    (cands : List Nat) (j : Nat) :
    (rpStore encode sqrtQ svmFit nu gamma corpus st cands).score j =
      if j ∈ cands then some (rpScore encode sqrtQ svmFit nu gamma corpus st j)
      else st.score j := by
  rw [rpStore, zip_map_self, assignScores_score_map]

theorem ne_nil_of_rank_papers_ok (encode : String → List ℚ) (sqrtQ : ℚ → ℚ)
    (svmFit : ℚ → String → List (List ℚ) → List ℚ → ℚ)
    (cands : List Nat) (st : PaperStore) (corpus : List RefItem)
    (nu : ℚ) (gamma : String) (ms : ℚ)
    (r : List Nat × DebugInfo × PaperStore)
    (h : rank_papers encode sqrtQ svmFit cands st corpus nu gamma ms = .ok r) :
    corpus ≠ [] ∧ cands ≠ [] := by
  have hc : corpus ≠ [] := by
    rintro rfl
    rw [rank_papers_corpus_nil] at h
    exact Except.noConfusion h
  refine ⟨hc, ?_⟩
  rintro rfl
  rw [rank_papers_cands_nil encode sqrtQ svmFit st corpus nu gamma ms hc] at h
  exact Except.noConfusion h

theorem rank_papers_ok_components (encode : String → List ℚ) (sqrtQ : ℚ → ℚ)
    (svmFit : ℚ → String → List (List ℚ) → List ℚ → ℚ)
    (cands : List Nat) (st : PaperStore) (corpus : List RefItem)
    (nu : ℚ) (gamma : String) (ms : ℚ)
    (ranked : List Nat) (dbg : DebugInfo) (st2 : PaperStore)
    (h : rank_papers encode sqrtQ svmFit cands st corpus nu gamma ms =
      .ok (ranked, dbg, st2)) :
    ranked = rpRanked encode sqrtQ svmFit nu gamma corpus st cands ms ∧
    dbg = rpDbg encode sqrtQ svmFit nu gamma corpus st cands ∧
    st2 = rpStore encode sqrtQ svmFit nu gamma corpus st cands := by
  obtain ⟨hc, hk⟩ :=
    ne_nil_of_rank_papers_ok encode sqrtQ svmFit cands st corpus nu gamma ms _ h
  rw [rank_papers_ok_form encode sqrtQ svmFit cands st corpus nu gamma ms hc hk]
    at h
  injection h with h2
  injection h2 with ha hrest
  injection hrest with hb hcst
  exact ⟨ha.symm, hb.symm, hcst.symm⟩

/-- C4: in every successful `rank_papers` run, every candidate in the
returned ranked list carries an assigned score that is at least the
`min_score` threshold, and conversely every candidate of the input batch
whose assigned score is at least the threshold appears in the returned
list. -/
theorem C4_threshold_filter_sound_complete (encode : String → List ℚ)
    (sqrtQ : ℚ → ℚ)
    (svmFit : ℚ → String → List (List ℚ) → List ℚ → ℚ)
    (cands : List Nat) (st : PaperStore) (corpus : List RefItem)
    (nu : ℚ) (gamma : String) (ms : ℚ)
    (ranked : List Nat) (dbg : DebugInfo) (st2 : PaperStore)
    (h : rank_papers encode sqrtQ svmFit cands st corpus nu gamma ms =
      .ok (ranked, dbg, st2)) :
    (∀ i ∈ ranked, ∃ s, st2.score i = some s ∧ ms ≤ s) ∧
    (∀ i ∈ cands, ∀ s, st2.score i = some s → ms ≤ s → i ∈ ranked) := by
  obtain ⟨hr, -, hs⟩ := rank_papers_ok_components encode sqrtQ svmFit cands st
    corpus nu gamma ms ranked dbg st2 h
  subst hr hs
  constructor
  · intro i hi
    rw [rpRanked, List.mem_insertionSort, rpMatching, List.mem_filter] at hi
    obtain ⟨hic, hany⟩ := hi
    cases hsc : (rpStore encode sqrtQ svmFit nu gamma corpus st cands).score i with
    | none => rw [hsc] at hany; exact absurd hany (by simp)
    | some s =>
      rw [hsc] at hany
      rw [Option.any_some] at hany
      exact ⟨s, rfl, of_decide_eq_true hany⟩
  · intro i hic s hsome hle
    rw [rpRanked, List.mem_insertionSort, rpMatching, List.mem_filter]
    refine ⟨hic, ?_⟩
    rw [hsome, Option.any_some]
    exact decide_eq_true hle

/-- C6: the `debug_info` statistics of a successful `rank_papers` run
bound every raw assigned score of the batch, thresholding included:
every input candidate ends with some assigned score `s` satisfying
`min_score ≤ s ≤ max_score` of the record, whether or not it survives the
threshold filter. -/
theorem C6_stats_bound_all_raw_scores (encode : String → List ℚ)
    (sqrtQ : ℚ → ℚ)
    (svmFit : ℚ → String → List (List ℚ) → List ℚ → ℚ)
    (cands : List Nat) (st : PaperStore) (corpus : List RefItem)
    (nu : ℚ) (gamma : String) (ms : ℚ)
    (ranked : List Nat) (dbg : DebugInfo) (st2 : PaperStore)
    (h : rank_papers encode sqrtQ svmFit cands st corpus nu gamma ms =
      .ok (ranked, dbg, st2)) :
    ∀ i ∈ cands, ∃ s, st2.score i = some s ∧
      dbg.min_score ≤ s ∧ s ≤ dbg.max_score := by
  obtain ⟨-, hd, hs⟩ := rank_papers_ok_components encode sqrtQ svmFit cands st
    corpus nu gamma ms ranked dbg st2 h
  subst hd hs
  intro i hi
  refine ⟨rpScore encode sqrtQ svmFit nu gamma corpus st i, ?_, ?_, ?_⟩
  · rw [rpStore_score]
    simp [hi]
  · exact pyminD_le _ _
      (List.mem_map_of_mem (fun i => rpScore encode sqrtQ svmFit nu gamma corpus st i) hi)
  · exact le_pymaxD _ _
      (List.mem_map_of_mem (fun i => rpScore encode sqrtQ svmFit nu gamma corpus st i) hi)

/-- C8: the scaler and the one-class boundary are fitted from the
reference corpus only, so the score a successful `rank_papers` run
assigns to a candidate is `scoreFun` of the candidate's own summary — a
function of the encoder, the solver, the hyperparameters and the corpus,
but not of which other candidates are in the batch. -/
theorem C8_score_depends_only_on_own_summary (encode : String → List ℚ)
    (sqrtQ : ℚ → ℚ)
    (svmFit : ℚ → String → List (List ℚ) → List ℚ → ℚ)
    (cands : List Nat) (st : PaperStore) (corpus : List RefItem)
    (nu : ℚ) (gamma : String) (ms : ℚ)
    (ranked : List Nat) (dbg : DebugInfo) (st2 : PaperStore)
    (h : rank_papers encode sqrtQ svmFit cands st corpus nu gamma ms =
      .ok (ranked, dbg, st2)) :
    ∀ i ∈ cands, st2.score i =
      some (scoreFun encode sqrtQ svmFit nu gamma corpus (st.summary i)) := by
  obtain ⟨-, -, hs⟩ := rank_papers_ok_components encode sqrtQ svmFit cands st
    corpus nu gamma ms ranked dbg st2 h
  subst hs
  intro i hi
  rw [rpStore_score]
  simp [hi, rpScore]

/-- C10 (amended): with a nonempty reference corpus and an empty
candidate list, `rank_papers` does not return an empty ranked list with
statistics — it raises; but the exception is the batch transform's input
validation rejecting the empty candidate feature matrix
(`scaler.transform(candidate_features)`, `src/recommender.py` line 22),
raised before the statistics record and its `max`/`min` are reached. -/
theorem C10_empty_candidates_transform_error (encode : String → List ℚ)
    (sqrtQ : ℚ → ℚ)
    (svmFit : ℚ → String → List (List ℚ) → List ℚ → ℚ)
    (st : PaperStore) (corpus : List RefItem)
    (nu : ℚ) (gamma : String) (ms : ℚ) (hc : corpus ≠ []) :
    rank_papers encode sqrtQ svmFit [] st corpus nu gamma ms =
      .error "Found array with 0 samples" :=
  rank_papers_cands_nil encode sqrtQ svmFit st corpus nu gamma ms hc

/-- C2 (amended): in the tag loop, a tag whose reference subset is empty
is skipped — it contributes no output entry and no exception, the loop
continuing with the remaining tags; in the untagged branch there is no
such guard, and an empty reference corpus makes the single `rank_papers`
call raise the scaler's empty-fit error. -/
theorem C2_empty_partition_skipped_tagged_only (encode : String → List ℚ)
    (sqrtQ : ℚ → ℚ)
    (svmFit : ℚ → String → List (List ℚ) → List ℚ → ℚ)
    (corpus : List RefItem) (papers : List Nat) (ms : ℚ)
    (tag : String) (rest : List String) (st : PaperStore)
    (hempty : filter_corpus_by_tag corpus tag = []) :
    tagLoop encode sqrtQ svmFit corpus papers ms (tag :: rest) st =
      tagLoop encode sqrtQ svmFit corpus papers ms rest st ∧
    ∀ (st2 : PaperStore) (papers2 : List Nat) (ms2 : ℚ),
      rankFullCorpus encode sqrtQ svmFit papers2 st2 [] ms2 =
        .error "Found array with 0 samples" := by
  constructor
  · simp only [tagLoop, hempty, List.isEmpty_nil, if_true]
  · intro st2 papers2 ms2
    exact rank_papers_corpus_nil encode sqrtQ svmFit papers2 st2 (1/10) "scale" ms2

/-- Concrete one-dimensional encoder for closed evaluations: the length
of the text. -/
def encode0 : String → List ℚ := fun s => [(s.length : ℚ)]

/-- Concrete stand-in for the rational square root in closed evaluations
(only ever compared with 0, where it agrees with the real square root). -/
def sqrt0 : ℚ → ℚ := fun q => q

/-- Concrete SVM solver for closed evaluations: scores every row by the
number of fitted corpus rows, which distinguishes reference subsets of
different sizes. -/
def svm0 : ℚ → String → List (List ℚ) → List ℚ → ℚ :=
  fun _ _ cs _ => (cs.length : ℚ)

/-- Concrete SVM solver for closed evaluations: scores a row by its first
coordinate. -/
def svm1 : ℚ → String → List (List ℚ) → List ℚ → ℚ :=
  fun _ _ _ v => v.headD 0

/-- Initial heap for closed evaluations: every id unscored; id 0 has
summary "x", all other ids have summary "abc". -/
def st0 : PaperStore :=
  ⟨fun i => if i = 0 then "x" else "abc", fun _ => none, fun _ => 0⟩

/-- Concrete corpus for closed evaluations: two items tagged "A", one
item tagged "B". -/
def corpus0 : List RefItem :=
  [⟨"a", ["A"]⟩, ⟨"bb", ["A"]⟩, ⟨"c", ["B"]⟩]

/-- C1 fails on the code: with tags `["A", "B"]` (reference subsets of
sizes 2 and 1) and one shared candidate object, the tag loop leaves the
candidate's recorded score at 1 — partition B's score — although the
lists recorded for both partitions contain the candidate and the score
`rank_papers` computes against partition A's subset alone is 2.  The
shallow `papers.copy()` shares the objects, so the assignment of
partition B overwrites partition A's score before the output is read. -/
theorem C1_recorded_score_is_last_partition :
    ((tagLoop encode0 sqrt0 svm0 corpus0 [0] (-1) ["A", "B"] st0).toOption.map
      (fun r => (r.1.map (fun e => (e.1, e.2.1)), r.2.score 0))
      = some ([("A", [0]), ("B", [0])], some 1)) ∧
    ((rank_papers encode0 sqrt0 svm0 [0] st0 (filter_corpus_by_tag corpus0 "A")
        (1/10) "scale" (-1)).toOption.map (fun r => r.2.2.score 0)
      = some (some 2)) := by
  decide

/-- C3 fails on the code: the score field starts as `None` but in a
multi-tag run it is assigned once per nonempty tag partition — here
twice, for tags "A" and "B" — not exactly once, because the candidate
objects are shared between the partitions. -/
theorem C3_score_reassigned_in_multitag_run :
    (st0.score 0 = none ∧ st0.assigns 0 = 0) ∧
    ((tagLoop encode0 sqrt0 svm0 corpus0 [0] (-1) ["A", "B"] st0).toOption.map
      (fun r => r.2.assigns 0) = some 2) := by
  decide

/-- C2 counterexample: in the untagged mode the empty reference corpus is
not skipped — the `rank_papers` call raises the empty-fit error, so an
exception does escape for the single implicit partition. -/
theorem C2_untagged_empty_corpus_raises :
    rankFullCorpus encode0 sqrt0 svm0 [0] st0 [] (-1/10) =
      .error "Found array with 0 samples" := rfl

/-- C10 counterexample: at a concrete empty candidate batch with a
nonempty corpus, the error `rank_papers` raises is the transform
validation error, which is not the error Python's `max` raises on an
empty sequence — refuting the claim that the exception arises while
building the statistics record from the min/max of an empty score
collection. -/
theorem C10_error_not_from_stats :
    rank_papers encode0 sqrt0 svm0 [] st0 corpus0 (1/10) "scale" (-1/10) =
      .error "Found array with 0 samples" ∧
    pymax [] = .error "max arg is an empty sequence" ∧
    ("Found array with 0 samples" : String) ≠ "max arg is an empty sequence" :=
  ⟨rfl, rfl, by decide⟩

/-- A stable sort leaves the subsequence of elements selected by a
predicate untouched, provided the sort relation holds between any two
selected elements. -/
theorem insertionSort_filter_stable {α : Type} (r : α → α → Prop)
    [DecidableRel r] (l : List α) (p : α → Bool)
    (hp : ∀ a ∈ l, ∀ b ∈ l, p a = true → p b = true → r a b) :
    (l.insertionSort r).filter p = l.filter p := by
  have hpairc : (l.filter p).Pairwise r := by
    refine List.pairwise_of_forall_mem_list ?_
    intro a ha b hb
    exact hp a (List.mem_of_mem_filter ha) b (List.mem_of_mem_filter hb)
      (List.mem_filter.mp ha).2 (List.mem_filter.mp hb).2
  have hsub : List.Sublist (l.filter p) (l.insertionSort r) :=
    List.sublist_insertionSort hpairc (List.filter_sublist l)
  have hsub2 : List.Sublist (l.filter p) ((l.insertionSort r).filter p) := by
    have h2 := hsub.filter p
    rwa [List.filter_filter,
      show (fun a => p a && p a) = p from funext (fun a => Bool.and_self (p a))]
      at h2
  have hperm := (List.perm_insertionSort r l).filter p
  exact (hsub2.eq_of_length hperm.length_eq.symm).symm

/-- C5: the ranked output of a successful `rank_papers` run is sorted by
non-increasing assigned score, and candidates with equal scores keep the
relative order they had in the input candidate list: for any score value
`q` at or above the threshold, the ranked list restricted to score `q`
equals the input list restricted to score `q`. -/
theorem C5_sorted_descending_stable (encode : String → List ℚ)
    (sqrtQ : ℚ → ℚ)
    (svmFit : ℚ → String → List (List ℚ) → List ℚ → ℚ)
    (cands : List Nat) (st : PaperStore) (corpus : List RefItem)
    (nu : ℚ) (gamma : String) (ms : ℚ)
    (ranked : List Nat) (dbg : DebugInfo) (st2 : PaperStore)
    (h : rank_papers encode sqrtQ svmFit cands st corpus nu gamma ms =
      .ok (ranked, dbg, st2)) :
    List.Pairwise (fun a b => scoreD st2 b ≤ scoreD st2 a) ranked ∧
    ∀ q : ℚ, ms ≤ q →
      ranked.filter (fun i => decide (scoreD st2 i = q)) =
        cands.filter (fun i => decide (scoreD st2 i = q)) := by
  obtain ⟨hr, -, hs⟩ := rank_papers_ok_components encode sqrtQ svmFit cands st
    corpus nu gamma ms ranked dbg st2 h
  subst hr hs
  set S := rpStore encode sqrtQ svmFit nu gamma corpus st cands with hS
  set r : Nat → Nat → Prop := fun a b => scoreD S b ≤ scoreD S a with hrdef
  haveI : IsTotal Nat r := ⟨fun a b => le_total (scoreD S b) (scoreD S a)⟩
  haveI : IsTrans Nat r := ⟨fun _ _ _ hab hbc => le_trans hbc hab⟩
  constructor
  · exact List.sorted_insertionSort r
      (rpMatching encode sqrtQ svmFit nu gamma corpus st cands ms)
  · intro q hq
    have hstable := insertionSort_filter_stable r
      (rpMatching encode sqrtQ svmFit nu gamma corpus st cands ms)
      (fun i => decide (scoreD S i = q)) ?_
    · rw [rpRanked, hstable, rpMatching, List.filter_filter]
      refine List.filter_congr ?_
      intro a ha
      by_cases hpa : scoreD S a = q
      · have hscore : S.score a =
            some (rpScore encode sqrtQ svmFit nu gamma corpus st a) := by
          rw [hS, rpStore_score]
          simp [ha]
        have hval : scoreD S a =
            rpScore encode sqrtQ svmFit nu gamma corpus st a := by
          rw [scoreD, hscore]
          rfl
        have hpass : (S.score a).any (fun s => decide (ms ≤ s)) = true := by
          rw [hscore, Option.any_some]
          refine decide_eq_true ?_
          rw [← hval, hpa]
          exact hq
        rw [decide_eq_true hpa, hpass]
        rfl
      · rw [decide_eq_false hpa]
        rfl
    · intro a _ b _ hpa hpb
      have hqa : scoreD S a = q := of_decide_eq_true hpa
      have hqb : scoreD S b = q := of_decide_eq_true hpb
      show scoreD S b ≤ scoreD S a
      rw [hqa, hqb]

/-- C7: running `rank_papers` a second time on the same candidate
objects (as mutated by the first run), the same reference corpus, the
same encoder and the same hyperparameters reproduces the identical
ranked list, the identical statistics record, and an identical score for
every object: the embedded pipeline threads no random state, matching
the source in which neither the scaler nor the one-class SVM fit is
randomized. -/
theorem C7_rank_papers_idempotent (encode : String → List ℚ)
    (sqrtQ : ℚ → ℚ)
    (svmFit : ℚ → String → List (List ℚ) → List ℚ → ℚ)
    (cands : List Nat) (st : PaperStore) (corpus : List RefItem)
    (nu : ℚ) (gamma : String) (ms : ℚ)
    (ranked : List Nat) (dbg : DebugInfo) (st2 : PaperStore)
    (h : rank_papers encode sqrtQ svmFit cands st corpus nu gamma ms =
      .ok (ranked, dbg, st2)) :
    ∃ st3, rank_papers encode sqrtQ svmFit cands st2 corpus nu gamma ms =
      .ok (ranked, dbg, st3) ∧ st3.score = st2.score := by
  obtain ⟨hc, hk⟩ :=
    ne_nil_of_rank_papers_ok encode sqrtQ svmFit cands st corpus nu gamma ms _ h
  obtain ⟨hr, hd, hs⟩ := rank_papers_ok_components encode sqrtQ svmFit cands st
    corpus nu gamma ms ranked dbg st2 h
  subst hr hd hs
  set S2 := rpStore encode sqrtQ svmFit nu gamma corpus st cands with hS2
  have h2 := rank_papers_ok_form encode sqrtQ svmFit cands S2 corpus nu gamma ms
    hc hk
  have hsum : S2.summary = st.summary := by
    rw [hS2, rpStore]
    exact assignScores_summary _ _
  have hg : ∀ i, rpScore encode sqrtQ svmFit nu gamma corpus S2 i =
      rpScore encode sqrtQ svmFit nu gamma corpus st i := by
    intro i
    rw [rpScore, rpScore, hsum]
  have hscore : (rpStore encode sqrtQ svmFit nu gamma corpus S2 cands).score =
      S2.score := by
    funext j
    rw [rpStore_score]
    by_cases hj : j ∈ cands
    · rw [if_pos hj, hg j, hS2, rpStore_score, if_pos hj]
    · rw [if_neg hj]
  have hscoreD : scoreD (rpStore encode sqrtQ svmFit nu gamma corpus S2 cands) =
      scoreD S2 := by
    funext i
    rw [scoreD, scoreD, hscore]
  have hdbg : rpDbg encode sqrtQ svmFit nu gamma corpus S2 cands =
      rpDbg encode sqrtQ svmFit nu gamma corpus st cands := by
    rw [rpDbg, rpDbg]
    simp only [hg]
  have hmatch : rpMatching encode sqrtQ svmFit nu gamma corpus S2 cands ms =
      rpMatching encode sqrtQ svmFit nu gamma corpus st cands ms := by
    rw [rpMatching, rpMatching]
    simp only [hscore, hS2]
  have hrank : rpRanked encode sqrtQ svmFit nu gamma corpus S2 cands ms =
      rpRanked encode sqrtQ svmFit nu gamma corpus st cands ms := by
    rw [rpRanked, rpRanked, hmatch]
    simp only [hscoreD, hS2]
  refine ⟨rpStore encode sqrtQ svmFit nu gamma corpus S2 cands, ?_, hscore⟩
  rw [h2, hrank, hdbg]

/-- C9: for a nonempty reference matrix, fitting the scaler succeeds; no
fitted scale entry is zero (so the transform never divides by zero); and
on a column of zero variance — including the size-1 reference set, where
every column has zero variance — the scale is 1 and the transform only
centers that coordinate.  The hypothesis on `sqrtQ` is the fact that the
real square root of a nonnegative number vanishes exactly at zero. -/
theorem C9_zero_variance_safe (sqrtQ : ℚ → ℚ)
    (hsq : ∀ q : ℚ, 0 ≤ q → (sqrtQ q = 0 ↔ q = 0))
    (X : List (List ℚ)) (hX : X ≠ []) :
    StandardScaler.fit sqrtQ X = .ok (fitScaler sqrtQ X) ∧
    (∀ j, j < nFeatures X → (fitScaler sqrtQ X).scales.getD j 0 ≠ 0) ∧
    (∀ j, j < nFeatures X → qvar (colVals X j) = 0 →
      (fitScaler sqrtQ X).scales.getD j 0 = 1 ∧
      ∀ v : List ℚ, v.length = nFeatures X →
        ((fitScaler sqrtQ X).transform v).getD j 0 =
          v.getD j 0 - qmean (colVals X j)) := by
  have hmlen : (fitScaler sqrtQ X).means.length = nFeatures X := by
    simp [fitScaler]
  have hslen : (fitScaler sqrtQ X).scales.length = nFeatures X := by
    simp [fitScaler]
  have hsget : ∀ j, j < nFeatures X → (fitScaler sqrtQ X).scales.getD j 0 =
      handleZerosInScale (sqrtQ (qvar (colVals X j))) := by
    intro j hj
    have hj2 : j < (fitScaler sqrtQ X).scales.length := by rw [hslen]; exact hj
    rw [List.getD_eq_getElem _ _ hj2]
    simp [fitScaler]
  have hmget : ∀ j, j < nFeatures X → (fitScaler sqrtQ X).means.getD j 0 =
      qmean (colVals X j) := by
    intro j hj
    have hj2 : j < (fitScaler sqrtQ X).means.length := by rw [hmlen]; exact hj
    rw [List.getD_eq_getElem _ _ hj2]
    simp [fitScaler]
  refine ⟨fit_of_ne_nil sqrtQ X hX, ?_, ?_⟩
  · intro j hj
    rw [hsget j hj, handleZerosInScale]
    split
    · exact one_ne_zero
    · assumption
  · intro j hj hvar
    have hscale1 : (fitScaler sqrtQ X).scales.getD j 0 = 1 := by
      rw [hsget j hj, hvar, handleZerosInScale]
      have : sqrtQ 0 = 0 := (hsq 0 le_rfl).mpr rfl
      rw [this]
      simp
    refine ⟨hscale1, ?_⟩
    intro v hv
    have hjv : j < v.length := by rw [hv]; exact hj
    have hjzip : j < ((fitScaler sqrtQ X).means.zip (fitScaler sqrtQ X).scales).length := by
      rw [List.length_zip, hmlen, hslen]
      exact lt_min hj hj
    have hjw : j < ((fitScaler sqrtQ X).transform v).length := by
      rw [StandardScaler.transform, List.length_zipWith]
      exact lt_min hjv hjzip
    rw [List.getD_eq_getElem _ _ hjw]
    simp only [StandardScaler.transform]
    rw [List.getElem_zipWith]
    rw [List.getElem_zip]
    have hm : (fitScaler sqrtQ X).means[j] = qmean (colVals X j) := by
      rw [← List.getD_eq_getElem _ 0, hmget j hj]
    have hs : (fitScaler sqrtQ X).scales[j] = 1 := by
      rw [← List.getD_eq_getElem _ 0, hscale1]
    rw [hm, hs]
    rw [List.getD_eq_getElem _ _ hjv]
    field_simp

/-- Concrete two-item reference corpus for witnesses, both items tagged
"A". -/
def corpusA : List RefItem := [⟨"a", ["A"]⟩, ⟨"bb", ["A"]⟩]

/-- The ranked list of the concrete witness run. -/
def rankedW : List Nat := rpRanked encode0 sqrt0 svm1 (1/10) "scale" corpusA st0 [0, 1] 0

/-- The debug record of the concrete witness run. -/
def dbgW : DebugInfo := rpDbg encode0 sqrt0 svm1 (1/10) "scale" corpusA st0 [0, 1]

/-- The mutated heap of the concrete witness run. -/
def stW : PaperStore := rpStore encode0 sqrt0 svm1 (1/10) "scale" corpusA st0 [0, 1]

theorem C4_witness :
    (rank_papers encode0 sqrt0 svm1 [0, 1] st0 corpusA (1/10) "scale" 0 =
      .ok (rankedW, dbgW, stW)) ∧
    ((∀ i ∈ rankedW, ∃ s, stW.score i = some s ∧ (0 : ℚ) ≤ s) ∧
     (∀ i ∈ [0, 1], ∀ s, stW.score i = some s → (0 : ℚ) ≤ s → i ∈ rankedW)) := by
  have h : rank_papers encode0 sqrt0 svm1 [0, 1] st0 corpusA (1/10) "scale" 0 =
      .ok (rankedW, dbgW, stW) :=
    rank_papers_ok_form encode0 sqrt0 svm1 [0, 1] st0 corpusA (1/10) "scale" 0
      (by decide) (by decide)
  exact ⟨h, C4_threshold_filter_sound_complete encode0 sqrt0 svm1 [0, 1] st0
    corpusA (1/10) "scale" 0 rankedW dbgW stW h⟩

theorem C5_witness :
    (rank_papers encode0 sqrt0 svm1 [0, 1] st0 corpusA (1/10) "scale" 0 =
      .ok (rankedW, dbgW, stW)) ∧
    (List.Pairwise (fun a b => scoreD stW b ≤ scoreD stW a) rankedW ∧
     ∀ q : ℚ, (0 : ℚ) ≤ q →
       rankedW.filter (fun i => decide (scoreD stW i = q)) =
         [0, 1].filter (fun i => decide (scoreD stW i = q))) := by
  have h : rank_papers encode0 sqrt0 svm1 [0, 1] st0 corpusA (1/10) "scale" 0 =
      .ok (rankedW, dbgW, stW) :=
    rank_papers_ok_form encode0 sqrt0 svm1 [0, 1] st0 corpusA (1/10) "scale" 0
      (by decide) (by decide)
  exact ⟨h, C5_sorted_descending_stable encode0 sqrt0 svm1 [0, 1] st0
    corpusA (1/10) "scale" 0 rankedW dbgW stW h⟩

theorem C6_witness :
    (rank_papers encode0 sqrt0 svm1 [0, 1] st0 corpusA (1/10) "scale" 0 =
      .ok (rankedW, dbgW, stW)) ∧
    (∀ i ∈ [0, 1], ∃ s, stW.score i = some s ∧
      dbgW.min_score ≤ s ∧ s ≤ dbgW.max_score) := by
  have h : rank_papers encode0 sqrt0 svm1 [0, 1] st0 corpusA (1/10) "scale" 0 =
      .ok (rankedW, dbgW, stW) :=
    rank_papers_ok_form encode0 sqrt0 svm1 [0, 1] st0 corpusA (1/10) "scale" 0
      (by decide) (by decide)
  exact ⟨h, C6_stats_bound_all_raw_scores encode0 sqrt0 svm1 [0, 1] st0
    corpusA (1/10) "scale" 0 rankedW dbgW stW h⟩

theorem C7_witness :
    (rank_papers encode0 sqrt0 svm1 [0, 1] st0 corpusA (1/10) "scale" 0 =
      .ok (rankedW, dbgW, stW)) ∧
    (∃ st3, rank_papers encode0 sqrt0 svm1 [0, 1] stW corpusA (1/10) "scale" 0 =
      .ok (rankedW, dbgW, st3) ∧ st3.score = stW.score) := by
  have h : rank_papers encode0 sqrt0 svm1 [0, 1] st0 corpusA (1/10) "scale" 0 =
      .ok (rankedW, dbgW, stW) :=
    rank_papers_ok_form encode0 sqrt0 svm1 [0, 1] st0 corpusA (1/10) "scale" 0
      (by decide) (by decide)
  exact ⟨h, C7_rank_papers_idempotent encode0 sqrt0 svm1 [0, 1] st0
    corpusA (1/10) "scale" 0 rankedW dbgW stW h⟩

theorem C8_witness :
    (rank_papers encode0 sqrt0 svm1 [0, 1] st0 corpusA (1/10) "scale" 0 =
      .ok (rankedW, dbgW, stW)) ∧
    (∀ i ∈ [0, 1], stW.score i =
      some (scoreFun encode0 sqrt0 svm1 (1/10) "scale" corpusA (st0.summary i))) := by
  have h : rank_papers encode0 sqrt0 svm1 [0, 1] st0 corpusA (1/10) "scale" 0 =
      .ok (rankedW, dbgW, stW) :=
    rank_papers_ok_form encode0 sqrt0 svm1 [0, 1] st0 corpusA (1/10) "scale" 0
      (by decide) (by decide)
  exact ⟨h, C8_score_depends_only_on_own_summary encode0 sqrt0 svm1 [0, 1] st0
    corpusA (1/10) "scale" 0 rankedW dbgW stW h⟩

theorem C9_witness :
    (∀ q : ℚ, 0 ≤ q → (sqrt0 q = 0 ↔ q = 0)) ∧
    ([[(3 : ℚ), 5]] ≠ ([] : List (List ℚ))) ∧
    (StandardScaler.fit sqrt0 [[(3 : ℚ), 5]] =
      .ok (fitScaler sqrt0 [[(3 : ℚ), 5]]) ∧
    (∀ j, j < nFeatures [[(3 : ℚ), 5]] →
      (fitScaler sqrt0 [[(3 : ℚ), 5]]).scales.getD j 0 ≠ 0) ∧
    (∀ j, j < nFeatures [[(3 : ℚ), 5]] →
      qvar (colVals [[(3 : ℚ), 5]] j) = 0 →
      (fitScaler sqrt0 [[(3 : ℚ), 5]]).scales.getD j 0 = 1 ∧
      ∀ v : List ℚ, v.length = nFeatures [[(3 : ℚ), 5]] →
        ((fitScaler sqrt0 [[(3 : ℚ), 5]]).transform v).getD j 0 =
          v.getD j 0 - qmean (colVals [[(3 : ℚ), 5]] j))) :=
  ⟨fun q _ => Iff.rfl, by decide,
    C9_zero_variance_safe sqrt0 (fun q _ => Iff.rfl) [[(3 : ℚ), 5]] (by decide)⟩

theorem C10_witness :
    (corpus0 ≠ []) ∧
    (rank_papers encode0 sqrt0 svm0 [] st0 corpus0 (1/10) "scale" (-1/10) =
      .error "Found array with 0 samples") :=
  ⟨by decide, C10_empty_candidates_transform_error encode0 sqrt0 svm0 st0
    corpus0 (1/10) "scale" (-1/10) (by decide)⟩

theorem C2_witness :
    (filter_corpus_by_tag corpus0 "C" = []) ∧
    (tagLoop encode0 sqrt0 svm0 corpus0 [0] (-1) ("C" :: ["A"]) st0 =
      tagLoop encode0 sqrt0 svm0 corpus0 [0] (-1) ["A"] st0 ∧
     ∀ (st2 : PaperStore) (papers2 : List Nat) (ms2 : ℚ),
       rankFullCorpus encode0 sqrt0 svm0 papers2 st2 [] ms2 =
         .error "Found array with 0 samples") :=
  ⟨by decide, C2_empty_partition_skipped_tagged_only encode0 sqrt0 svm0 corpus0
    [0] (-1) "C" ["A"] st0 (by decide)⟩
